import Mathlib

/-!
Verification of the credential persistence subsystem of `azure-cli-core`
(`azure/cli/core/auth/identity.py`): the `MsalSecretStore` secret store,
its backend selection, cross-process locking discipline, and the
ADAL-to-MSAL token migration in `Identity.migrate_tokens`.

The Python code is shallowly embedded: records persisted in the JSON
secret-store file become a Lean structure whose optional fields are the
dictionary keys the code reads, each store operation becomes a pure
function from the loaded record list (every public operation reloads the
backing file first, so the backend content is the state), and exceptions
become `Except`.
-/

namespace AzCliAuth

/-- A service-principal credential record, i.e. one JSON object in the
`msalSecrets.cache` array.  The fields are exactly the dictionary keys the
code reads or writes: `servicePrincipalId`, `servicePrincipalTenant`,
`secret` (new format, `get_entry_to_persist`), `certificateFile`,
`accessToken` (legacy format, `get_entry_to_persist_legacy`) and
`thumbprint`.  A missing key is `none`. -/
structure SpEntry where
  servicePrincipalId : String
  servicePrincipalTenant : String
  secret : Option String := none
  certificateFile : Option String := none
  accessToken : Option String := none
  thumbprint : Option String := none
deriving DecidableEq

/-- The `(principal, tenant)` key of a record. -/
def keyOf (x : SpEntry) : String × String :=
  (x.servicePrincipalId, x.servicePrincipalTenant)

/-- The match predicate of `save_service_principal_cred`:
`sp_entry[_SERVICE_PRINCIPAL_ID] == x[_SERVICE_PRINCIPAL_ID] and
sp_entry[_SERVICE_PRINCIPAL_TENANT] == x[_SERVICE_PRINCIPAL_TENANT]`. -/
def sameKey (e x : SpEntry) : Bool :=
  decide (e.servicePrincipalId = x.servicePrincipalId) &&
    decide (e.servicePrincipalTenant = x.servicePrincipalTenant)

/-- The documented store invariant: `(principal_id, tenant_id)` is unique
within the record list. -/
def uniqueKeys (l : List SpEntry) : Prop :=
  l.Pairwise (fun a b => keyOf a ≠ keyOf b)

/-- Python `list.remove`: drop the first occurrence of a value.  The code
only calls it on `matched[0]`, which is a member of the list. -/
def removeFirst : List SpEntry → SpEntry → List SpEntry
  | [], _ => []
  | x :: xs, m => if x = m then xs else x :: removeFirst xs m

/-- Errors raised to the CLI user (`CLIError`); the secret store raises it
naming the service principal when no cached record matches. -/
inductive CLIErr where
  | notLoggedIn (spId : String)
deriving DecidableEq

/-- `cred.get(_SERVICE_PRINCIPAL_SECRET, None) or
cred.get(_SERVICE_PRINCIPAL_CERT_FILE, None)`: Python `or` falls through
to the certificate value when the secret is absent (`None`) or the empty
string (falsy). -/
def credValue (c : SpEntry) : Option String :=
  match c.secret with
  | some s => if s = "" then c.certificateFile else some s
  | none => c.certificateFile

/-- `MsalSecretStore.retrieve_secret_of_service_principal`.  The result
pairs the returned value with whether the cross-tenant fallback warning
was emitted. -/
def retrieve_secret_of_service_principal (creds : List SpEntry) (spId tenant : String) :
    Except CLIErr (Option String × Bool) :=
  match creds.filter (fun x => decide (spId = x.servicePrincipalId)) with
  | [] => .error (.notLoggedIn spId)
  | m :: ms =>
    match (m :: ms).filter (fun x => decide (tenant = x.servicePrincipalTenant)) with
    | [] => .ok (credValue m, true)
    | mt :: _ => .ok (credValue mt, false)

/-- `MsalSecretStore.save_service_principal_cred`.  Returns the new record
list and whether `_persist_cached_creds` was called (a backend write).
Note the content comparison reads the `accessToken` and `certificateFile`
keys of both entries, not the `secret` key. -/
def save_service_principal_cred (creds : List SpEntry) (e : SpEntry) :
    List SpEntry × Bool :=
  match creds.filter (sameKey e) with
  | [] => (creds ++ [e], true)
  | m :: _ =>
    if e.accessToken ≠ m.accessToken ∨ e.certificateFile ≠ m.certificateFile then
      (removeFirst creds m ++ [e], true)
    else
      (creds, false)

/-- `MsalSecretStore.remove_cached_creds`.  Returns the new record list and
whether a backend write happened. -/
def remove_cached_creds (creds : List SpEntry) (spId : String) :
    List SpEntry × Bool :=
  let matched := creds.filter (fun x => decide (x.servicePrincipalId = spId))
  if matched.isEmpty then (creds, false)
  else (creds.filter (fun x => decide (x ∉ matched)), true)

/-- Filesystem errors relevant to `os.remove`. -/
inductive FsError where
  | fileNotFoundError
deriving DecidableEq

/-- `os.remove` on the token file, with the file content as `Option`:
removing an existing file leaves no file; removing a missing file raises
`FileNotFoundError`. -/
def osRemove : Option (List SpEntry) → Except FsError (Option (List SpEntry))
  | some _ => .ok none
  | none => .error .fileNotFoundError

/-- `MsalSecretStore.remove_all_cached_creds`: `os.remove` with
`FileNotFoundError` caught and passed. -/
def remove_all_cached_creds (f : Option (List SpEntry)) :
    Except FsError (Option (List SpEntry)) :=
  match osRemove f with
  | .ok f' => .ok f'
  | .error .fileNotFoundError => .ok f

/-- `MsalSecretStore._load_cached_creds` on the backing file content:
`PersistenceNotFound` is swallowed, leaving the initial empty list. -/
def load_cached_creds : Option (List SpEntry) → List SpEntry
  | none => []
  | some l => l

/-! ## Backend selection (`MsalSecretStore._build_persistence`) -/

/-- Host platform as tested by the `sys.platform.startswith` chain. -/
inductive HostOS where
  | windows
  | darwin
  | linux
  | other
deriving DecidableEq

/-- The `msal_extensions` persistence variant the code constructs. -/
inductive Persistence where
  | filePersistenceWithDataProtection
  | keychainPersistence
  | libsecretPersistence
  | filePersistence
deriving DecidableEq

/-- Error propagated out of `_build_persistence` when constructing
`LibsecretPersistence` fails and plaintext fallback is disallowed. -/
inductive BuildError where
  | libsecretUnavailable
deriving DecidableEq

/-- `MsalSecretStore._build_persistence`.  `libsecretAvailable` is the one
availability probe (whether the `LibsecretPersistence` constructor
succeeds); `fallbackToPlaintext` is `self._fallback_to_plaintext`.  The
result pairs the selected backend with whether the
"Encryption unavailable" warning was emitted. -/
def build_persistence (p : HostOS) (libsecretAvailable fallbackToPlaintext : Bool) :
    Except BuildError (Persistence × Bool) :=
  match p with
  | .windows => .ok (.filePersistenceWithDataProtection, false)
  | .darwin => .ok (.keychainPersistence, false)
  | .linux =>
    if libsecretAvailable then .ok (.libsecretPersistence, false)
    else if !fallbackToPlaintext then .error .libsecretUnavailable
    else .ok (.filePersistence, true)
  | .other => .ok (.filePersistence, false)

/-! ## Locking discipline

Each public store operation is abstracted to its straight-line trace of
lock and storage events.  `_load_cached_creds` and `_persist_cached_creds`
each wrap their single backend access in their own
`with CrossPlatLock(self._lock_file)` block (so the lock is released on
every exit path of that block), while `remove_all_cached_creds` calls
`os.remove` directly with no lock. -/

/-- Lock and storage events. -/
inductive Ev where
  | acquire
  | release
  | load
  | store
  | delete
deriving DecidableEq

/-- Whether an event touches the store's backing storage. -/
def isStorage : Ev → Bool
  | .load => true
  | .store => true
  | .delete => true
  | _ => false

/-- Trace of `_load_cached_creds`: one lock block around the backend
`load`. -/
def loadTrace : List Ev := [.acquire, .load, .release]

/-- Trace of `_persist_cached_creds`: one lock block around the backend
`save`. -/
def persistTrace : List Ev := [.acquire, .store, .release]

/-- Trace of `retrieve_secret_of_service_principal`: only the reload. -/
def retrieveTrace : List Ev := loadTrace

/-- Trace of `save_service_principal_cred`: reload, then persist only when
the state changed. -/
def saveTrace (stateChanged : Bool) : List Ev :=
  loadTrace ++ if stateChanged then persistTrace else []

/-- Trace of `remove_cached_creds`: reload, then persist only when the
state changed. -/
def removeTrace (stateChanged : Bool) : List Ev :=
  loadTrace ++ if stateChanged then persistTrace else []

/-- Trace of `remove_all_cached_creds`: a bare `os.remove`. -/
def removeAllTrace : List Ev := [.delete]

/-- `true` when some storage event occurs while the lock depth is zero,
starting from depth `d`. -/
def storageOutsideLock : List Ev → Nat → Bool
  | [], _ => false
  | .acquire :: t, d => storageOutsideLock t (d + 1)
  | .release :: t, d => storageOutsideLock t (d - 1)
  | e :: t, d => (isStorage e && decide (d = 0)) || storageOutsideLock t d

/-- Lock balance from depth `d`: every release matches an earlier acquire
and the trace ends with the lock fully released. -/
def lockBalanced : List Ev → Nat → Bool
  | [], d => decide (d = 0)
  | .acquire :: t, d => lockBalanced t (d + 1)
  | .release :: t, d => decide (d ≠ 0) && lockBalanced t (d - 1)
  | _ :: t, d => lockBalanced t d

/-- Number of occurrences of an event in a trace. -/
def countEv (e : Ev) (t : List Ev) : Nat :=
  (t.filter (fun x => decide (x = e))).length

/-- The spec's locking discipline, stated over a trace: the operation
acquires the Cross-Process Lock for its full extent (the trace starts with
the only acquire and ends with the only release) and no storage access
occurs outside the lock. -/
def specLockFullExtent (t : List Ev) : Bool :=
  (match t with | .acquire :: _ => true | _ => false) &&
    (match t.getLast? with | some .release => true | _ => false) &&
    decide (countEv .acquire t = 1) && decide (countEv .release t = 1) &&
    !storageOutsideLock t 0

/-! ## ADAL token migration (`Identity.migrate_tokens`)

A legacy ADAL cache entry is a JSON object; the fields below are the keys
`migrate_tokens` reads.  Indexing a missing key raises `KeyError`.  The
legacy cache itself is loaded by `AdalCredentialCache._load_tokens_from_file`,
which is not part of this repository's sources. -/

/-- One entry of the legacy ADAL token cache (`accessToken.json`). -/
structure AdalEntry where
  userId : Option String := none
  authorityKey : Option String := none
  resource : Option String := none
  refreshToken : Option String := none
  servicePrincipalId : Option String := none
  servicePrincipalTenant : Option String := none
  accessToken : Option String := none
deriving DecidableEq

/-- Python exceptions arising inside the migration loop. -/
inductive PyError where
  | keyError (key : String)
  | cliError
  | typeError
deriving DecidableEq

/-- Python `entry[key]`: `KeyError` when the key is missing. -/
def getKey (v : Option String) (key : String) : Except PyError String :=
  match v with
  | some s => .ok s
  | none => .error (.keyError key)

/-- The body of the per-entry block of `Identity.migrate_tokens`.  For a
user entry (`'userId' in entry`) the code reads `_authority`, `resource`
and `refreshToken`, then calls `self._build_persistent_msal_app(authority)`
— but `_build_persistent_msal_app` is defined with no parameter besides
`self`, so the call itself raises `TypeError` before any token exchange.
For a service-principal entry the code reads `servicePrincipalId` and
`servicePrincipalTenant` for the log line, then saves the entry. -/
def processAdalEntry (e : AdalEntry) : Except PyError Unit :=
  match e.userId with
  | some _ => do
    let _ ← getKey e.authorityKey "_authority"
    let _ ← getKey e.resource "resource"
    let _ ← getKey e.refreshToken "refreshToken"
    .error .typeError
  | none => do
    let _ ← getKey e.servicePrincipalId "servicePrincipalId"
    let _ ← getKey e.servicePrincipalTenant "servicePrincipalTenant"
    .ok ()

/-- The migration loop: `except CLIError: continue` — only `CLIError` is
caught; any other exception propagates and aborts the whole loop.  Returns
the entries processed without error. -/
def migrateLoop : List AdalEntry → List AdalEntry → Except PyError (List AdalEntry)
  | [], acc => .ok acc.reverse
  | e :: rest, acc =>
    match processAdalEntry e with
    | .ok () => migrateLoop rest (e :: acc)
    | .error .cliError => migrateLoop rest acc
    | .error err => .error err

/-- `Identity.migrate_tokens`.  Modelled from the spec:
`AdalCredentialCache._load_tokens_from_file` (not in this repository's
sources) yields no entries when the legacy file is absent, and
`migrate_tokens` returns early on a falsy entry list; otherwise the loop
above runs over the loaded entries. -/
def migrate_tokens : Option (List AdalEntry) → Except PyError (List AdalEntry)
  | none => .ok []
  | some entries =>
    if entries.isEmpty then .ok [] else migrateLoop entries []

/-! ## Concrete records used in witnesses and counterexamples -/

/-- `{servicePrincipalId: "sp1", servicePrincipalTenant: "t1", secret: "abc"}`. -/
def abcRecord : SpEntry :=
  { servicePrincipalId := "sp1", servicePrincipalTenant := "t1", secret := some "abc" }

/-- `{servicePrincipalId: "sp1", servicePrincipalTenant: "t1", secret: "xyz"}`. -/
def xyzRecord : SpEntry :=
  { servicePrincipalId := "sp1", servicePrincipalTenant := "t1", secret := some "xyz" }

/-- A record persisted in the legacy format: the credential sits under the
`accessToken` key, with no `secret` and no `certificateFile`. -/
def tokRecord : SpEntry :=
  { servicePrincipalId := "sp1", servicePrincipalTenant := "t1", accessToken := some "tok" }

/-- A malformed legacy cache entry: an object with none of the expected keys. -/
def malformedAdalEntry : AdalEntry := {}

/-- A valid legacy user entry carrying a refresh token. -/
def userAdalEntry : AdalEntry :=
  { userId := some "user@contoso.com",
    authorityKey := some "https://login.microsoftonline.com/t1",
    resource := some "https://management.core.windows.net/",
    refreshToken := some "rt" }

/-- A valid legacy service-principal entry. -/
def spAdalEntry : AdalEntry :=
  { servicePrincipalId := some "sp1", servicePrincipalTenant := some "t1",
    accessToken := some "s" }

/-- The credential selection of `retrieve_secret_of_service_principal` on a
nonempty match list (`identity.py` lines 347-354): the first record whose
tenant matches exactly, else the first match with the cross-tenant warning
(the `Bool` is whether the warning was emitted). -/
def pickMatched (m : SpEntry) (ms : List SpEntry) (tenant : String) : SpEntry × Bool :=
  match (m :: ms).filter (fun x => decide (tenant = x.servicePrincipalTenant)) with
  | [] => (m, true)
  | mt :: _ => (mt, false)

/-! ## Helper lemmas -/

theorem sameKey_iff {e x : SpEntry} : sameKey e x = true ↔ keyOf e = keyOf x := by
  simp [sameKey, keyOf, Prod.ext_iff]

theorem sameKey_self (e : SpEntry) : sameKey e e = true := by
  simp [sameKey]

theorem sameKey_eq_decide (e x : SpEntry) : sameKey e x = decide (keyOf e = keyOf x) := by
  by_cases h1 : e.servicePrincipalId = x.servicePrincipalId <;>
    by_cases h2 : e.servicePrincipalTenant = x.servicePrincipalTenant <;>
      simp [sameKey, keyOf, Prod.ext_iff, h1, h2]

theorem filter_sameKey_of_mem {creds : List SpEntry} {e : SpEntry}
    (h : uniqueKeys creds) (he : e ∈ creds) : creds.filter (sameKey e) = [e] := by
  induction creds with
  | nil => cases he
  | cons x xs ih =>
    rw [uniqueKeys, List.pairwise_cons] at h
    rcases List.mem_cons.mp he with rfl | hmem
    · have hnil : xs.filter (sameKey e) = [] :=
        List.filter_eq_nil_iff.mpr fun a ha hsk => h.1 a ha (sameKey_iff.mp hsk)
      simp [List.filter_cons, sameKey_self, hnil]
    · have hx : ¬ sameKey e x = true := fun hsk =>
        h.1 e hmem (sameKey_iff.mp hsk).symm
      simp only [List.filter_cons, Bool.eq_false_iff.mpr hx, Bool.false_eq_true, if_false]
      exact ih h.2 hmem

theorem filter_sameKey_tail_nil {creds : List SpEntry} {e m : SpEntry} {rest : List SpEntry}
    (h : uniqueKeys creds) (hf : creds.filter (sameKey e) = m :: rest) : rest = [] := by
  have hm : m ∈ creds.filter (sameKey e) := hf ▸ List.mem_cons_self m rest
  have hmem := (List.mem_filter.mp hm).1
  have hsk : sameKey e m = true := (List.mem_filter.mp hm).2
  have hkey : keyOf e = keyOf m := sameKey_iff.mp hsk
  have hcongr : creds.filter (sameKey e) = creds.filter (sameKey m) :=
    List.filter_congr fun a _ => by rw [sameKey_eq_decide, sameKey_eq_decide, hkey]
  have hone := filter_sameKey_of_mem h hmem
  rw [hcongr, hone] at hf
  simpa using hf.symm

theorem removeFirst_sublist (l : List SpEntry) (m : SpEntry) :
    List.Sublist (removeFirst l m) l := by
  induction l with
  | nil => simp [removeFirst]
  | cons x xs ih =>
    simp only [removeFirst]
    split
    · exact List.sublist_cons_self x xs
    · exact List.Sublist.cons₂ x ih

theorem filter_removeFirst {p : SpEntry → Bool} {m : SpEntry} (hp : p m = true)
    (l : List SpEntry) : (removeFirst l m).filter p = removeFirst (l.filter p) m := by
  induction l with
  | nil => rfl
  | cons x xs ih =>
    by_cases hx : x = m
    · subst hx
      simp [removeFirst, List.filter_cons, hp]
    · simp only [removeFirst, if_neg hx]
      by_cases hpx : p x = true
      · simp [List.filter_cons, hpx, removeFirst, if_neg hx, ih]
      · simp [List.filter_cons, Bool.eq_false_iff.mpr hpx, ih]

theorem retrieve_error_of_no_match {creds : List SpEntry} {spId : String} (tenant : String)
    (h : ∀ x ∈ creds, x.servicePrincipalId ≠ spId) :
    retrieve_secret_of_service_principal creds spId tenant = .error (.notLoggedIn spId) := by
  have hf : creds.filter (fun x => decide (spId = x.servicePrincipalId)) = [] :=
    List.filter_eq_nil_iff.mpr fun a ha hda => h a ha (of_decide_eq_true hda).symm
  simp [retrieve_secret_of_service_principal, hf]

theorem mem_remove_cached_creds {creds : List SpEntry} {spId : String} {y : SpEntry}
    (hy : y ∈ (remove_cached_creds creds spId).1) :
    y ∈ creds ∧ y.servicePrincipalId ≠ spId := by
  rw [remove_cached_creds] at hy
  by_cases hm : (creds.filter (fun x => decide (x.servicePrincipalId = spId))).isEmpty
  · rw [if_pos hm] at hy
    refine ⟨hy, fun hid => ?_⟩
    have hnil := List.isEmpty_iff.mp hm
    exact absurd (decide_eq_true hid) (List.filter_eq_nil_iff.mp hnil y hy)
  · rw [if_neg hm] at hy
    have hmem := (List.mem_filter.mp hy).1
    have hnotin : y ∉ creds.filter (fun x => decide (x.servicePrincipalId = spId)) :=
      of_decide_eq_true (List.mem_filter.mp hy).2
    refine ⟨hmem, fun hid => hnotin ?_⟩
    exact List.mem_filter.mpr ⟨hmem, decide_eq_true hid⟩

/-! ## Claim theorems -/

/-- C1: the claim says a save with an existing `(principal_id, tenant_id)`
key and a different secret replaces the stored record (last-write-wins).
The code instead compares only the `accessToken` and `certificateFile` keys
of the two entries; current-format entries store the credential under the
`secret` key, so the changed secret is not detected: the store keeps the old
record, no backend write happens, and a subsequent retrieve still returns
the old secret. -/
theorem save_changed_secret_not_persisted :
    save_service_principal_cred [abcRecord] xyzRecord = ([abcRecord], false) ∧
    retrieve_secret_of_service_principal
        (save_service_principal_cred [abcRecord] xyzRecord).1 "sp1" "t1" =
      .ok (some "abc", false) :=
  ⟨by decide, rfl⟩

/-- C2 counterexample: the claim that every public storage operation holds
the Cross-Process Lock for its full extent (one acquire at the start, one
release at the end, no storage access outside the lock) is false:
`remove_all_cached_creds` deletes the file with no lock at all, and a
state-changing save acquires the lock twice (once in `_load_cached_creds`,
once in `_persist_cached_creds`) rather than spanning one
load-then-save cycle. -/
theorem lock_full_extent_refuted :
    specLockFullExtent removeAllTrace = false ∧
    specLockFullExtent (saveTrace true) = false := by
  decide

/-- C2 amended: retrieve, save and remove wrap each backend access (the
load and the save) in its own lock acquire/release pair, released on every
exit path, and no load or store happens outside a lock; but the lock scope
does not span the whole load-then-possibly-save cycle (a state-changing
save acquires the lock twice), and remove_all deletes the backing file
without acquiring the lock. -/
theorem lock_per_access_discipline :
    (∀ c : Bool,
      lockBalanced (saveTrace c) 0 = true ∧ storageOutsideLock (saveTrace c) 0 = false ∧
      lockBalanced (removeTrace c) 0 = true ∧ storageOutsideLock (removeTrace c) 0 = false) ∧
    lockBalanced retrieveTrace 0 = true ∧ storageOutsideLock retrieveTrace 0 = false ∧
    countEv .acquire (saveTrace true) = 2 ∧
    removeAllTrace = [.delete] ∧ storageOutsideLock removeAllTrace 0 = true := by
  refine ⟨fun c => ?_, ?_⟩
  · cases c <;> exact ⟨rfl, rfl, rfl, rfl⟩
  · exact ⟨rfl, rfl, rfl, rfl, rfl⟩

/-- C3: the claim says every per-entry failure during legacy migration is
caught and skipped, so migration never raises.  The code catches only
`CLIError`: a malformed entry with no `userId` and no `servicePrincipalId`
raises an uncaught `KeyError` that aborts the whole migration (the valid
entry after it is never migrated), and any user entry raises `TypeError`
because `_build_persistent_msal_app(authority)` passes an argument the
method does not accept.  An absent legacy file does raise no error, and a
well-formed service-principal entry alone migrates fine. -/
theorem migrate_tokens_abort_on_malformed :
    migrate_tokens none = .ok [] ∧
    migrate_tokens (some [malformedAdalEntry, spAdalEntry]) =
      .error (.keyError "servicePrincipalId") ∧
    migrate_tokens (some [userAdalEntry]) = .error .typeError ∧
    migrate_tokens (some [spAdalEntry]) = .ok [spAdalEntry] :=
  ⟨rfl, rfl, rfl, rfl⟩

/-- C4: backend selection is the deterministic decision table of
`_build_persistence`: Windows gets the data-protection-encrypted file,
macOS the keychain, Linux libsecret when available — a plain file plus the
warning when libsecret is unavailable and fallback is allowed, the error
propagated when fallback is disallowed — and any other platform the plain
file. -/
theorem build_persistence_selection (a f : Bool) :
    build_persistence .windows a f = .ok (.filePersistenceWithDataProtection, false) ∧
    build_persistence .darwin a f = .ok (.keychainPersistence, false) ∧
    build_persistence .linux true f = .ok (.libsecretPersistence, false) ∧
    build_persistence .linux false true = .ok (.filePersistence, true) ∧
    build_persistence .linux false false = .error .libsecretUnavailable ∧
    build_persistence .other a f = .ok (.filePersistence, false) := by
  cases a <;> cases f <;> exact ⟨rfl, rfl, rfl, rfl, rfl, rfl⟩

/-- C5: on a store satisfying the documented key-uniqueness invariant,
saving a record identical to one already present performs no backend
write; after any save of `e`, saving `e` again performs no backend write;
and when no stored record shares `e`'s key, the first save does write —
so saving the same new record twice results in exactly one backend
write. -/
theorem save_write_avoidance (creds : List SpEntry) (e : SpEntry) (h : uniqueKeys creds) :
    (e ∈ creds → save_service_principal_cred creds e = (creds, false)) ∧
    (save_service_principal_cred (save_service_principal_cred creds e).1 e).2 = false ∧
    ((∀ x ∈ creds, sameKey e x = false) → (save_service_principal_cred creds e).2 = true) := by
  refine ⟨fun he => ?_, ?_, fun hall => ?_⟩
  · have hf := filter_sameKey_of_mem h he
    simp [save_service_principal_cred, hf]
  · rcases hfe : creds.filter (sameKey e) with _ | ⟨m, rest⟩
    · have h1 : (creds ++ [e]).filter (sameKey e) = [e] := by
        simp [List.filter_append, hfe, sameKey_self]
      simp [save_service_principal_cred, hfe, h1]
    · have hrest := filter_sameKey_tail_nil h hfe
      subst hrest
      have hskm : sameKey e m = true := (List.mem_filter.mp (hfe ▸ List.mem_cons_self m [])).2
      by_cases hc : e.accessToken ≠ m.accessToken ∨ e.certificateFile ≠ m.certificateFile
      · have h2 : (removeFirst creds m ++ [e]).filter (sameKey e) = [e] := by
          rw [List.filter_append, filter_removeFirst hskm, hfe]
          simp [removeFirst, sameKey_self]
        simp [save_service_principal_cred, hfe, if_pos hc, h2]
      · simp [save_service_principal_cred, hfe, if_neg hc]
  · have hf : creds.filter (sameKey e) = [] :=
      List.filter_eq_nil_iff.mpr fun a ha hsa => by simp [hall a ha] at hsa
    simp [save_service_principal_cred, hf]

/-- C5 witness: the theorem applied to the one-record store `[abcRecord]`
and the identical record `abcRecord`. -/
theorem save_write_avoidance_witness :
    (abcRecord ∈ [abcRecord] →
      save_service_principal_cred [abcRecord] abcRecord = ([abcRecord], false)) ∧
    (save_service_principal_cred
        (save_service_principal_cred [abcRecord] abcRecord).1 abcRecord).2 = false ∧
    ((∀ x ∈ [abcRecord], sameKey abcRecord x = false) →
      (save_service_principal_cred [abcRecord] abcRecord).2 = true) :=
  save_write_avoidance [abcRecord] abcRecord (List.pairwise_singleton _ _)

/-- C6: retrieve fails with the `NotLoggedIn` CLI error naming the
requested principal exactly when no stored record has the given
`principal_id`; and after `remove(principal_id)`, retrieve for that
principal under any tenant fails with that error. -/
theorem retrieve_fails_notLoggedIn_iff (creds : List SpEntry) (spId tenant : String) :
    ((∀ x ∈ creds, x.servicePrincipalId ≠ spId) ↔
      retrieve_secret_of_service_principal creds spId tenant = .error (.notLoggedIn spId)) ∧
    (∀ t, retrieve_secret_of_service_principal (remove_cached_creds creds spId).1 spId t =
      .error (.notLoggedIn spId)) := by
  constructor
  · constructor
    · exact retrieve_error_of_no_match tenant
    · intro herr x hx hxid
      rcases hf : creds.filter (fun x => decide (spId = x.servicePrincipalId)) with _ | ⟨m, ms⟩
      · have hmem : x ∈ creds.filter (fun x => decide (spId = x.servicePrincipalId)) :=
          List.mem_filter.mpr ⟨hx, by simp [hxid]⟩
        rw [hf] at hmem
        cases hmem
      · rcases hg : (m :: ms).filter (fun x => decide (tenant = x.servicePrincipalTenant))
          with _ | ⟨mt, mts⟩ <;>
          simp [retrieve_secret_of_service_principal, hf, hg] at herr
  · intro t
    apply retrieve_error_of_no_match
    intro y hy
    exact (mem_remove_cached_creds hy).2

/-- C7: when some stored record matches the requested principal, retrieve
does not fail: if no match has the requested tenant it returns the first
match's credential with the cross-tenant warning; if some match has the
tenant, the first such record is preferred and no warning is emitted. -/
theorem retrieve_cross_tenant_fallback (creds : List SpEntry) (spId tenant : String)
    (m : SpEntry) (ms : List SpEntry)
    (h : creds.filter (fun x => decide (spId = x.servicePrincipalId)) = m :: ms) :
    ((m :: ms).filter (fun x => decide (tenant = x.servicePrincipalTenant)) = [] →
      retrieve_secret_of_service_principal creds spId tenant = .ok (credValue m, true)) ∧
    (∀ mt mts,
      (m :: ms).filter (fun x => decide (tenant = x.servicePrincipalTenant)) = mt :: mts →
      retrieve_secret_of_service_principal creds spId tenant = .ok (credValue mt, false)) := by
  constructor
  · intro hg
    simp [retrieve_secret_of_service_principal, h, hg]
  · intro mt mts hg
    simp [retrieve_secret_of_service_principal, h, hg]

/-- C7 witness: the spec's scenario — store `[{id:"sp1", tenant:"t1",
secret:"abc"}]`, `retrieve("sp1","t2")` returns `"abc"` with the
cross-tenant warning. -/
theorem retrieve_cross_tenant_fallback_witness :
    retrieve_secret_of_service_principal [abcRecord] "sp1" "t2" = .ok (some "abc", true) :=
  (retrieve_cross_tenant_fallback [abcRecord] "sp1" "t2" abcRecord [] (by rfl)).1 (by rfl)

/-- C8: starting from a store satisfying the `(principal_id, tenant_id)`
uniqueness invariant, save and remove preserve it, and remove_all leaves
the backing file absent, which loads as the empty (trivially unique)
store. -/
theorem store_ops_preserve_unique_keys (creds : List SpEntry) (e : SpEntry) (i : String)
    (f : Option (List SpEntry)) (h : uniqueKeys creds) :
    uniqueKeys (save_service_principal_cred creds e).1 ∧
    uniqueKeys (remove_cached_creds creds i).1 ∧
    remove_all_cached_creds f = .ok none ∧ uniqueKeys (load_cached_creds none) := by
  refine ⟨?_, ?_, ?_, List.Pairwise.nil⟩
  · rcases hfe : creds.filter (sameKey e) with _ | ⟨m, rest⟩
    · have hnotin : ∀ a ∈ creds, keyOf a ≠ keyOf e := fun a ha heq =>
        (List.filter_eq_nil_iff.mp hfe a ha) (sameKey_iff.mpr heq.symm)
      simp only [save_service_principal_cred, hfe]
      rw [uniqueKeys, List.pairwise_append]
      refine ⟨h, List.pairwise_singleton _ _, fun a ha b hb => ?_⟩
      have hb2 := List.mem_singleton.mp hb
      subst hb2
      exact hnotin a ha
    · have hrest := filter_sameKey_tail_nil h hfe
      subst hrest
      have hskm : sameKey e m = true := (List.mem_filter.mp (hfe ▸ List.mem_cons_self m [])).2
      by_cases hc : e.accessToken ≠ m.accessToken ∨ e.certificateFile ≠ m.certificateFile
      · simp only [save_service_principal_cred, hfe, if_pos hc]
        rw [uniqueKeys, List.pairwise_append]
        refine ⟨List.Pairwise.sublist (removeFirst_sublist creds m) h,
          List.pairwise_singleton _ _, fun a ha b hb => ?_⟩
        rw [List.mem_singleton.mp hb]
        have hfilter : (removeFirst creds m).filter (sameKey e) = [] := by
          rw [filter_removeFirst hskm, hfe]
          simp [removeFirst]
        exact fun heq =>
          (List.filter_eq_nil_iff.mp hfilter a ha) (sameKey_iff.mpr heq.symm)
      · simp only [save_service_principal_cred, hfe, if_neg hc]
        exact h
  · rw [remove_cached_creds]
    split
    · exact h
    · exact List.Pairwise.sublist (List.filter_sublist _) h
  · cases f <;> rfl

/-- C8 witness: the theorem applied to the one-record store `[abcRecord]`,
the record `xyzRecord`, principal `"sp1"` and a present backing file. -/
theorem store_ops_preserve_unique_keys_witness :
    uniqueKeys (save_service_principal_cred [abcRecord] xyzRecord).1 ∧
    uniqueKeys (remove_cached_creds [abcRecord] "sp1").1 ∧
    remove_all_cached_creds (some [abcRecord]) = .ok none ∧
    uniqueKeys (load_cached_creds none) :=
  store_ops_preserve_unique_keys [abcRecord] xyzRecord "sp1" (some [abcRecord])
    (List.pairwise_singleton _ _)

/-- C9: remove_all always succeeds and leaves no backing file — in
particular deleting a missing backing file (`FileNotFoundError` is caught)
raises no error, so remove_all on an empty or missing store succeeds and
is idempotent. -/
theorem remove_all_always_ok (f : Option (List SpEntry)) :
    remove_all_cached_creds f = .ok none := by
  cases f <;> rfl

/-- C10: once some record matches the requested principal, retrieve never
raises: it returns `.ok` of the selected record's value — the `secret`
field when present and non-empty, else the `certificateFile` field, else
`None` (so a record populated only under `accessToken`, or with an
empty-string secret, yields `None` or the certificate path rather than an
error). -/
theorem retrieve_matched_never_raises (creds : List SpEntry) (spId tenant : String)
    (m : SpEntry) (ms : List SpEntry)
    (h : creds.filter (fun x => decide (spId = x.servicePrincipalId)) = m :: ms) :
    retrieve_secret_of_service_principal creds spId tenant =
      .ok (credValue (pickMatched m ms tenant).1, (pickMatched m ms tenant).2) ∧
    (∀ c : SpEntry,
      (∀ s, c.secret = some s → s ≠ "" → credValue c = some s) ∧
      ((c.secret = none ∨ c.secret = some "") → credValue c = c.certificateFile)) := by
  constructor
  · rcases hg : (m :: ms).filter (fun x => decide (tenant = x.servicePrincipalTenant))
      with _ | ⟨mt, mts⟩ <;>
      simp [retrieve_secret_of_service_principal, pickMatched, h, hg]
  · intro c
    constructor
    · intro s hs hne
      simp [credValue, hs, hne]
    · intro hcs
      rcases hcs with hcs | hcs <;> simp [credValue, hcs]

/-- C10 witness: a matched record stored only under the legacy
`accessToken` key yields `.ok` of `none` rather than an error. -/
theorem retrieve_matched_never_raises_witness :
    retrieve_secret_of_service_principal [tokRecord] "sp1" "t1" = .ok (none, false) :=
  (retrieve_matched_never_raises [tokRecord] "sp1" "t1" tokRecord [] (by rfl)).1

end AzCliAuth
